import Mathlib

/-!
Verification of the clauder repository: a shallow embedding of the
authentication middleware, the control flow of the quickstart command, the
coordinator client, passcode generation and the validation done by the
coordinator worker, plus spec-modelled embeddings of the screen tracker and
message segmenter (whose Go sources are not part of this snapshot).
Go strings are embedded as lists of characters.
-/

/-- Go strings are modelled as lists of characters. -/
abbrev GoStr := List Char

/-- Conversion from Lean string literals to the Go string model. -/
def gs (s : String) : GoStr := s.toList

/-- Embeds strings.HasPrefix from the Go standard library:
strings.HasPrefix(s, p) reports whether s begins with p. -/
def goHasPre : GoStr → GoStr → Bool
  | _, [] => true
  | [], _ :: _ => false
  | c :: s, p :: ps => c == p && goHasPre s ps

theorem goHasPre_append (pre t : GoStr) : goHasPre (pre ++ t) pre = true := by
  induction pre with
  | nil => cases t <;> rfl
  | cons c cs ih => simp [goHasPre, ih]

theorem goHasPre_decomp (s pre : GoStr) (h : goHasPre s pre = true) :
    s = pre ++ s.drop pre.length := by
  induction pre generalizing s with
  | nil => simp
  | cons p ps ih =>
    cases s with
    | nil => simp [goHasPre] at h
    | cons c cs =>
      simp [goHasPre] at h
      obtain ⟨h1, h2⟩ := h
      have := ih cs h2
      simp [h1]
      exact this

theorem goDrop_append (pre t : GoStr) : (pre ++ t).drop pre.length = t := by
  simp

/-- The bearer scheme marker checked by the middleware (Go const written
as the string Bearer followed by a space). -/
def bearerMarker : GoStr := gs "Bearer "

theorem bearerMarker_ne_nil : bearerMarker ≠ ([] : GoStr) := by decide

/-- The chained checks the middleware performs on the Authorization header
hold exactly when the header is the bearer marker followed by the token. -/
theorem bearerChecks_iff (auth token : GoStr) :
    (auth ≠ gs "" ∧ goHasPre auth bearerMarker = true ∧
      auth.drop bearerMarker.length = token) ↔ auth = bearerMarker ++ token := by
  constructor
  · rintro ⟨_, h2, h3⟩
    have := goHasPre_decomp auth bearerMarker h2
    rw [h3] at this
    exact this
  · rintro rfl
    refine ⟨?_, goHasPre_append _ _, goDrop_append _ _⟩
    show bearerMarker ++ token ≠ []
    cases hb : bearerMarker with
    | nil => exact absurd hb bearerMarker_ne_nil
    | cons c cs => simp

/-- A JSON value, as produced by the Go encoding/json parser. -/
inductive Json where
  | null
  | bool (b : Bool)
  | num (n : Int)
  | str (s : GoStr)
  | arr (elems : List Json)
  | obj (fields : List (GoStr × Json))

/-- Embeds strings.EqualFold as used by encoding/json field matching, by
character-wise lower-case folding (the tag name type is ASCII, where this
coincides with the Go fold). -/
def goEqualFold (a b : GoStr) : Bool :=
  a.map Char.toLower == b.map Char.toLower

/-- The values of the object keys that encoding/json assigns to a struct
field tagged json:"type", in document order: a key matches the field
exactly or case-insensitively. -/
def typeFieldVals (fields : List (GoStr × Json)) : List Json :=
  (fields.filter (fun f => goEqualFold f.1 (gs "type"))).map Prod.snd

/-- Folds the matching key values over the string field in document order,
as json.Unmarshal assigns them: a string value overwrites the field, null
leaves it unchanged, and any other value is a type error that makes
Unmarshal return non-nil. -/
def applyTypeVals : List Json → GoStr → Option GoStr
  | [], acc => some acc
  | Json.str s :: rest, _ => applyTypeVals rest s
  | Json.null :: rest, acc => applyTypeVals rest acc
  | _ :: _, _ => none

/-- Embeds json.Unmarshal(body, &msg) for msg of Go type struct with a
single string field tagged json:"type": returns the final field value on
success, none when Unmarshal reports an error. Keys are matched to the
field case-insensitively with later matching keys overwriting earlier
ones; an object without a matching key, or JSON null, leaves the Go zero
value (the empty string); a non-object document or a non-string non-null
value for a matching key is a type error. -/
def unmarshalTypeField : Json → Option GoStr
  | .obj fields => applyTypeVals (typeFieldVals fields) (gs "")
  | .null => some (gs "")
  | _ => none

/-- The state of an http.Request body: readable with given content, or a
reader whose Read fails. -/
inductive BodyState where
  | readable (content : GoStr)
  | broken
deriving DecidableEq

/-- The parts of an http.Request the middleware inspects. The authHeader
field is r.Header.Get("Authorization"), which is the empty string when the
header is absent. -/
structure Request where
  path : GoStr
  method : GoStr
  authHeader : GoStr
  body : BodyState
deriving DecidableEq

/-- Embeds isRawMessage (lib/httpapi, reproduced in coordinator/README.md):
reads the whole body (a read error yields false with the body left
consumed), restores the body for the next handler, and parses the JSON to
check whether the type field is the string raw. It is parametric in the
encoding/json parser, where none models a json.Unmarshal parse failure.
Returns the classification and the request as seen downstream. -/
def isRawMessage (parse : GoStr → Option Json) (r : Request) : Bool × Request :=
  match r.body with
  | .broken => (false, r)
  | .readable content =>
      let restored : Request := { r with body := .readable content }
      match parse content with
      | none => (false, restored)
      | some j =>
          match unmarshalTypeField j with
          | none => (false, restored)
          | some t => (t = gs "raw", restored)

/-- Outcome of the middleware: the request is forwarded to the inner
handler, or a 401 response with the given message is written and the inner
handler is never invoked. -/
inductive AuthResult where
  | forwarded (r : Request)
  | unauthorized (msg : GoStr)
deriving DecidableEq

/-- Embeds AuthMiddleware (lib/httpapi, reproduced in
coordinator/README.md): skips the token check for /health, for every path
starting with /internal/, and for POST /message bodies whose type is raw;
otherwise it requires the Authorization header to carry the configured
bearer token and responds 401 when it does not. -/
def AuthMiddleware (parse : GoStr → Option Json) (token : GoStr) (r : Request) : AuthResult :=
  if r.path = gs "/health" ∨ goHasPre r.path (gs "/internal/") = true then
    .forwarded r
  else
    let rawCheck : Bool × Request :=
      if r.path = gs "/message" ∧ r.method = gs "POST" then isRawMessage parse r
      else (false, r)
    if rawCheck.1 = true then .forwarded rawCheck.2
    else
      let auth := rawCheck.2.authHeader
      if auth = gs "" then .unauthorized (gs "Authorization required")
      else if goHasPre auth bearerMarker = false then
        .unauthorized (gs "Invalid authorization format")
      else if ¬ auth.drop bearerMarker.length = token then
        .unauthorized (gs "Invalid token")
      else .forwarded rawCheck.2

/-- isRawMessage leaves every field except possibly the body unchanged, and
the downstream body state equals the original one. -/
theorem isRawMessage_frame (parse : GoStr → Option Json) (r : Request) :
    (isRawMessage parse r).2.path = r.path ∧
    (isRawMessage parse r).2.method = r.method ∧
    (isRawMessage parse r).2.authHeader = r.authHeader ∧
    (isRawMessage parse r).2.body = r.body := by
  obtain ⟨p, m, a, b⟩ := r
  cases b with
  | broken => simp [isRawMessage]
  | readable content =>
    cases hp : parse content with
    | none => simp [isRawMessage, hp]
    | some j =>
      cases hu : unmarshalTypeField j with
      | none => simp [isRawMessage, hp, hu]
      | some t => simp [isRawMessage, hp, hu]

/-- The request isRawMessage hands to the next handler equals the original
request: the body is restored after reading. -/
theorem isRawMessage_snd_eq (parse : GoStr → Option Json) (r : Request) :
    (isRawMessage parse r).2 = r := by
  obtain ⟨h1, h2, h3, h4⟩ := isRawMessage_frame parse r
  cases hge : (isRawMessage parse r).2
  cases r
  simp_all

/-- The path-based exemptions of AuthMiddleware: /health and every path
starting with /internal/. -/
def exemptPath (r : Request) : Prop :=
  r.path = gs "/health" ∨ goHasPre r.path (gs "/internal/") = true

instance (r : Request) : Decidable (exemptPath r) := by
  unfold exemptPath; infer_instance

/-- The raw-message exemption of AuthMiddleware: a POST to /message whose
body parses as JSON with type equal to raw. -/
def rawExempt (parse : GoStr → Option Json) (r : Request) : Prop :=
  r.path = gs "/message" ∧ r.method = gs "POST" ∧ (isRawMessage parse r).1 = true

/-- C8: for every POST /message request, the raw-type check classifies the
request as exempt exactly when the body is readable and parses as JSON
whose type field is the string raw (read errors and malformed JSON
classify as non-raw), and the body seen downstream is byte-identical to
the original body. -/
theorem c8_isRawMessage_classification (parse : GoStr → Option Json) (r : Request) :
    ((isRawMessage parse r).1 = true ↔
      ∃ content j, r.body = .readable content ∧ parse content = some j ∧
        unmarshalTypeField j = some (gs "raw")) ∧
    (isRawMessage parse r).2.body = r.body := by
  refine ⟨?_, (isRawMessage_frame parse r).2.2.2⟩
  obtain ⟨p, m, a, b⟩ := r
  cases b with
  | broken => simp [isRawMessage]
  | readable content =>
    cases hp : parse content with
    | none => simp [isRawMessage, hp]
    | some j =>
      cases hu : unmarshalTypeField j with
      | none => simp [isRawMessage, hp, hu]
      | some t =>
        simp only [isRawMessage, hp, hu, decide_eq_true_eq]
        constructor
        · intro ht
          exact ⟨content, j, rfl, hp, by rw [hu, ht]⟩
        · rintro ⟨c, j', hc, hpj, hraw⟩
          cases hc
          rw [hp] at hpj
          cases hpj
          rw [hu] at hraw
          cases hraw
          rfl

/-- Convenience constructor for concrete requests. -/
def mkReq (p m a : String) (b : BodyState) : Request :=
  { path := gs p, method := gs m, authHeader := gs a, body := b }

/-- C4: any two requests whose path begins with /internal/ and differ only
in the Authorization header are treated identically by AuthMiddleware:
both are forwarded without any token check. -/
theorem c4_internal_paths_skip_auth (parse : GoStr → Option Json) (token : GoStr)
    (r : Request) (a1 a2 : GoStr)
    (h : goHasPre r.path (gs "/internal/") = true) :
    AuthMiddleware parse token { r with authHeader := a1 } =
      .forwarded { r with authHeader := a1 } ∧
    AuthMiddleware parse token { r with authHeader := a2 } =
      .forwarded { r with authHeader := a2 } := by
  constructor <;> · unfold AuthMiddleware; rw [if_pos (Or.inr h)]

theorem c4_internal_paths_skip_auth_witness :
    AuthMiddleware (fun _ => none) (gs "secret")
        (mkReq "/internal/metrics" "GET" "" (.readable [])) =
      AuthResult.forwarded (mkReq "/internal/metrics" "GET" "" (.readable [])) ∧
    AuthMiddleware (fun _ => none) (gs "secret")
        (mkReq "/internal/metrics" "GET" "Bearer wrong" (.readable [])) =
      AuthResult.forwarded (mkReq "/internal/metrics" "GET" "Bearer wrong" (.readable [])) :=
  c4_internal_paths_skip_auth (fun _ => none) (gs "secret")
    (mkReq "/internal/metrics" "GET" "" (.readable []))
    (gs "") (gs "Bearer wrong") (by decide)

/-- C1 counterexample: a GET request for /internal/metrics is neither
/health nor a raw POST /message and carries no valid bearer token, yet
AuthMiddleware forwards it to the inner handler instead of responding 401,
so the claim as stated is false. -/
theorem c1_counterexample :
    (mkReq "/internal/metrics" "GET" "" (.readable [])).path ≠ gs "/health" ∧
    ¬ ((mkReq "/internal/metrics" "GET" "" (.readable [])).path = gs "/message" ∧
       (mkReq "/internal/metrics" "GET" "" (.readable [])).method = gs "POST") ∧
    (mkReq "/internal/metrics" "GET" "" (.readable [])).authHeader ≠
      bearerMarker ++ gs "tok" ∧
    AuthMiddleware (fun _ => none) (gs "tok") (mkReq "/internal/metrics" "GET" "" (.readable [])) =
      AuthResult.forwarded (mkReq "/internal/metrics" "GET" "" (.readable [])) := by
  refine ⟨by decide, by decide, by decide, ?_⟩
  unfold AuthMiddleware
  rw [if_pos (Or.inr (by decide))]

instance (parse : GoStr → Option Json) (r : Request) : Decidable (rawExempt parse r) := by
  unfold rawExempt; infer_instance

theorem bearer_append_ne_empty (token : GoStr) : bearerMarker ++ token ≠ gs "" := by
  intro h
  have h' : bearerMarker = [] ∧ token = [] := by
    simpa [gs] using h
  exact bearerMarker_ne_nil h'.1

/-- Full characterization of AuthMiddleware: the exemptions forward
unconditionally, and every other request is forwarded exactly when the
Authorization header carries the configured bearer token. -/
theorem authMiddlewareBehavior (parse : GoStr → Option Json) (token : GoStr)
    (r : Request) :
    (exemptPath r → AuthMiddleware parse token r = .forwarded r) ∧
    (¬ exemptPath r → rawExempt parse r → AuthMiddleware parse token r = .forwarded r) ∧
    (¬ exemptPath r → ¬ rawExempt parse r →
      (AuthMiddleware parse token r = .forwarded r ↔
        r.authHeader = bearerMarker ++ token) ∧
      (¬ r.authHeader = bearerMarker ++ token →
        ∃ msg, AuthMiddleware parse token r = .unauthorized msg)) := by
  have hsnd := isRawMessage_snd_eq parse r
  refine ⟨?_, ?_, ?_⟩
  · intro he
    unfold exemptPath at he
    unfold AuthMiddleware
    rw [if_pos he]
  · intro he hraw
    obtain ⟨hp, hm, hr⟩ := hraw
    unfold exemptPath at he
    have hrc1 : (if r.path = gs "/message" ∧ r.method = gs "POST" then
        isRawMessage parse r else (false, r)).1 = true := by
      rw [if_pos (And.intro hp hm)]; exact hr
    have hrc2 : (if r.path = gs "/message" ∧ r.method = gs "POST" then
        isRawMessage parse r else (false, r)).2 = r := by
      rw [if_pos (And.intro hp hm)]; exact hsnd
    unfold AuthMiddleware
    rw [if_neg he]
    simp [hrc1, hrc2]
  · intro he hnr
    unfold exemptPath at he
    have hrc1 : (if r.path = gs "/message" ∧ r.method = gs "POST" then
        isRawMessage parse r else (false, r)).1 = false := by
      by_cases hpm : r.path = gs "/message" ∧ r.method = gs "POST"
      · rw [if_pos hpm]
        cases hb : (isRawMessage parse r).1
        · rfl
        · exact absurd ⟨hpm.1, hpm.2, hb⟩ hnr
      · rw [if_neg hpm]
    have hrc2 : (if r.path = gs "/message" ∧ r.method = gs "POST" then
        isRawMessage parse r else (false, r)).2 = r := by
      by_cases hpm : r.path = gs "/message" ∧ r.method = gs "POST"
      · rw [if_pos hpm]; exact hsnd
      · rw [if_neg hpm]
    unfold AuthMiddleware
    rw [if_neg he]
    simp only [hrc1, hrc2, Bool.false_eq_true, if_false]
    by_cases h1 : r.authHeader = gs ""
    · rw [if_pos h1]
      refine ⟨⟨fun h => absurd h (by simp), fun h => ?_⟩, fun _ => ⟨_, rfl⟩⟩
      exact absurd (h1.symm.trans h).symm (bearer_append_ne_empty token)
    · by_cases h2 : goHasPre r.authHeader bearerMarker = false
      · rw [if_neg h1, if_pos h2]
        refine ⟨⟨fun h => absurd h (by simp), fun h => ?_⟩, fun _ => ⟨_, rfl⟩⟩
        rw [h] at h2
        rw [goHasPre_append] at h2
        exact absurd h2 (by simp)
      · have h2' : goHasPre r.authHeader bearerMarker = true := by
          cases hgb : goHasPre r.authHeader bearerMarker
          · exact absurd hgb h2
          · rfl
        by_cases h3 : r.authHeader.drop bearerMarker.length = token
        · rw [if_neg h1, if_neg h2, if_neg (fun hc => hc h3)]
          have heq := (bearerChecks_iff r.authHeader token).mp ⟨h1, h2', h3⟩
          exact ⟨⟨fun _ => heq, fun _ => rfl⟩, fun hne => absurd heq hne⟩
        · rw [if_neg h1, if_neg h2, if_pos h3]
          refine ⟨⟨fun h => absurd h (by simp), fun h => ?_⟩, fun _ => ⟨_, rfl⟩⟩
          exact absurd ((bearerChecks_iff r.authHeader token).mpr h).2.2 h3

/-- C1 amended: AuthMiddleware forwards without a token check exactly the
requests for /health, for paths starting with /internal/, and raw POST
/message bodies; every other request is forwarded precisely when the
Authorization header is the bearer marker followed by the configured
token, and otherwise receives a 401 without the inner handler running. -/
theorem c1_auth_middleware_amended (parse : GoStr → Option Json) (token : GoStr)
    (r : Request) :
    (exemptPath r → AuthMiddleware parse token r = .forwarded r) ∧
    (¬ exemptPath r → rawExempt parse r → AuthMiddleware parse token r = .forwarded r) ∧
    (¬ exemptPath r → ¬ rawExempt parse r →
      (AuthMiddleware parse token r = .forwarded r ↔
        r.authHeader = bearerMarker ++ token) ∧
      (¬ r.authHeader = bearerMarker ++ token →
        ∃ msg, AuthMiddleware parse token r = .unauthorized msg)) :=
  authMiddlewareBehavior parse token r

theorem c1_auth_middleware_amended_witness :
    AuthMiddleware (fun _ => none) (gs "t") (mkReq "/health" "GET" "" (.readable [])) =
      AuthResult.forwarded (mkReq "/health" "GET" "" (.readable [])) ∧
    AuthMiddleware (fun _ => none) (gs "t") (mkReq "/status" "GET" "Bearer t" (.readable [])) =
      AuthResult.forwarded (mkReq "/status" "GET" "Bearer t" (.readable [])) ∧
    (∃ msg, AuthMiddleware (fun _ => none) (gs "t")
      (mkReq "/status" "GET" "Bearer x" (.readable [])) = AuthResult.unauthorized msg) :=
  ⟨(c1_auth_middleware_amended (fun _ => none) (gs "t")
      (mkReq "/health" "GET" "" (.readable []))).1 (Or.inl rfl),
   ((c1_auth_middleware_amended (fun _ => none) (gs "t")
      (mkReq "/status" "GET" "Bearer t" (.readable []))).2.2
      (by decide) (by decide)).1.mpr (by decide),
   ((c1_auth_middleware_amended (fun _ => none) (gs "t")
      (mkReq "/status" "GET" "Bearer x" (.readable []))).2.2
      (by decide) (by decide)).2 (by decide)⟩

/-- The observable status of the tracked agent. -/
inductive AgentStatus where
  | initializing
  | stable
  | changing
  | terminated
deriving DecidableEq

/-- Wire name of each status value. -/
def statusName : AgentStatus → GoStr
  | .initializing => gs "initializing"
  | .stable => gs "stable"
  | .changing => gs "changing"
  | .terminated => gs "terminated"

/-- An HTTP response: status code and body. -/
structure HttpResponse where
  code : Nat
  body : GoStr
deriving DecidableEq

/-- The small JSON object the status endpoint returns. -/
def statusBody (st : AgentStatus) : GoStr :=
  gs "\x7b\"status\":\"" ++ statusName st ++ gs "\"\x7d"

/-- Modelled from the spec: the GET /status handler of lib/httpapi is not
part of this source snapshot; per the spec it returns the current status
as a small JSON object and never fails. -/
def statusHandler (st : AgentStatus) : HttpResponse :=
  { code := 200, body := statusBody st }

/-- The /status endpoint as reached through AuthMiddleware (the middleware
is real source, the handler is spec-modelled): a 401 from the middleware
short-circuits the handler. -/
def statusApp (parse : GoStr → Option Json) (token : GoStr) (st : AgentStatus)
    (r : Request) : HttpResponse :=
  match AuthMiddleware parse token r with
  | .forwarded _ => statusHandler st
  | .unauthorized msg => { code := 401, body := msg }

/-- C2 counterexample: a GET /status request without an Authorization
header receives a 401 error response from the middleware, so not every
GET /status request succeeds with the status JSON. -/
theorem c2_counterexample :
    (mkReq "/status" "GET" "" (.readable [])).path = gs "/status" ∧
    (mkReq "/status" "GET" "" (.readable [])).method = gs "GET" ∧
    (statusApp (fun _ => none) (gs "tok") AgentStatus.stable
      (mkReq "/status" "GET" "" (.readable []))).code = 401 ∧
    (statusApp (fun _ => none) (gs "tok") AgentStatus.stable
      (mkReq "/status" "GET" "" (.readable []))).code ≠ 200 := by
  decide

/-- C2 amended: every GET /status request carrying the configured bearer
token reaches the handler and receives the current status as a small JSON
object with code 200; the handler itself never produces an error. -/
theorem c2_status_endpoint_amended (parse : GoStr → Option Json) (token : GoStr)
    (st : AgentStatus) (r : Request)
    (hpath : r.path = gs "/status")
    (hauth : r.authHeader = bearerMarker ++ token) :
    statusApp parse token st r = { code := 200, body := statusBody st } := by
  have hne : ¬ exemptPath r := by
    unfold exemptPath
    rw [hpath]
    decide
  have hnr : ¬ rawExempt parse r := by
    unfold rawExempt
    rw [hpath]
    rintro ⟨hmsg, -, -⟩
    exact absurd hmsg (by decide)
  have hfwd : AuthMiddleware parse token r = .forwarded r :=
    ((authMiddlewareBehavior parse token r).2.2 hne hnr).1.mpr hauth
  unfold statusApp
  rw [hfwd]
  rfl

theorem c2_status_endpoint_amended_witness :
    statusApp (fun _ => none) (gs "tok") AgentStatus.changing
      (mkReq "/status" "GET" "Bearer tok" (.readable [])) =
      { code := 200, body := statusBody AgentStatus.changing } :=
  c2_status_endpoint_amended (fun _ => none) (gs "tok") AgentStatus.changing
    (mkReq "/status" "GET" "Bearer tok" (.readable [])) (by decide) (by decide)

/-- The operations runQuickstart (cmd/quickstart/quickstart.go) performs, in
program order. -/
inductive QStep where
  | genSession
  | startClaude
  | serverStart
  | sleepServer
  | checkProviders
  | establishTunnel
  | registerCoordinator
  | displayInfo
  | startSnapshotLoop
  | waitInterrupt
  | serverStop
  | cancelCtx
  | closePty
deriving DecidableEq

/-- The trace of runQuickstart in source order: steps 1 through 9 of the
function body, then the shutdown sequence of waitForInterrupt (server.Stop,
then the explicit cancel of the context driving the snapshot loop) and the
deferred Close of the Claude PTY process, which runs after waitForInterrupt
returns. -/
def runQuickstartTrace : List QStep :=
  [.genSession, .startClaude, .serverStart, .sleepServer, .checkProviders,
   .establishTunnel, .registerCoordinator, .displayInfo, .startSnapshotLoop,
   .waitInterrupt, .serverStop, .cancelCtx, .closePty]

/-- Whether a step has occurred at or before position i of a trace. -/
def occurredAt (tr : List QStep) (s : QStep) (i : Nat) : Bool :=
  (tr.take (i + 1)).contains s

/-- The HTTP server is serving at position i: it has been started and not
yet stopped. -/
def servingAt (tr : List QStep) (i : Nat) : Bool :=
  occurredAt tr .serverStart i && !(occurredAt tr .serverStop i)

/-- The snapshot loop has been started at position i. -/
def loopStartedAt (tr : List QStep) (i : Nat) : Bool :=
  occurredAt tr .startSnapshotLoop i

/-- C3 counterexample: at position 5 of the quickstart trace (tunnel
establishment) the HTTP server is serving while the snapshot loop has not
been started, refuting the claim that the loop is started at server start
and that the server never serves before it. -/
theorem c3_counterexample :
    ¬ (∀ i < runQuickstartTrace.length,
        servingAt runQuickstartTrace i = true → loopStartedAt runQuickstartTrace i = true) ∧
    runQuickstartTrace[5]? = some QStep.establishTunnel ∧
    servingAt runQuickstartTrace 5 = true ∧
    loopStartedAt runQuickstartTrace 5 = false := by
  decide

/-- C3 amended: in runQuickstart the snapshot loop is started only at step
8, after the server begins serving and after tunnel establishment and
coordinator registration, and before waiting for interrupt; during
shutdown the context cancellation that stops the loop precedes closing the
PTY process. -/
theorem c3_quickstart_order_amended :
    runQuickstartTrace.indexOf QStep.serverStart <
      runQuickstartTrace.indexOf QStep.startSnapshotLoop ∧
    runQuickstartTrace.indexOf QStep.establishTunnel <
      runQuickstartTrace.indexOf QStep.startSnapshotLoop ∧
    runQuickstartTrace.indexOf QStep.registerCoordinator <
      runQuickstartTrace.indexOf QStep.startSnapshotLoop ∧
    runQuickstartTrace.indexOf QStep.startSnapshotLoop <
      runQuickstartTrace.indexOf QStep.waitInterrupt ∧
    runQuickstartTrace.indexOf QStep.cancelCtx <
      runQuickstartTrace.indexOf QStep.closePty := by
  decide

/-- Modelled from the spec: configuration of lib/screentracker (not under
src). Durations are measured in ticks of the sampling period; window is
the number of samples covering the stability window. -/
structure TrackerConfig where
  startupQuiet : Nat
  window : Nat
  ringCap : Nat

/-- Modelled from the spec: the tracker state of lib/screentracker (not
under src): elapsed ticks since process start, the bounded ring of the
most recent snapshot texts (most recent first), and whether the child
process has exited. -/
structure TrackerState where
  elapsed : Nat
  samples : List GoStr
  exited : Bool

/-- All snapshot texts in the list are byte-equal. -/
def allEqual : List GoStr → Bool
  | [] => true
  | x :: xs => xs.all (fun y => y = x)

/-- Modelled from the spec: the status classification of lib/screentracker
(not under src). A terminated child is final; before the startup quiet
window the status is initializing; otherwise the most recent samples
covering the stability window decide stable versus changing. -/
def classifyStatus (cfg : TrackerConfig) (st : TrackerState) : AgentStatus :=
  if st.exited = true then .terminated
  else if st.elapsed < cfg.startupQuiet then .initializing
  else if allEqual (st.samples.take cfg.window) = true then .stable
  else .changing

/-- Modelled from the spec: one tracker tick of lib/screentracker (not
under src): time advances, the new snapshot text enters the bounded ring,
and an exited child stays exited. -/
def trackTick (cfg : TrackerConfig) (st : TrackerState) (snap : GoStr)
    (exitedNow : Bool) : TrackerState :=
  { elapsed := st.elapsed + 1
    samples := (snap :: st.samples).take cfg.ringCap
    exited := st.exited || exitedNow }

/-- Runs a sequence of ticks, each given by the sampled snapshot text and
whether the child was observed exited at that tick. -/
def runTicks (cfg : TrackerConfig) (st : TrackerState)
    (ticks : List (GoStr × Bool)) : TrackerState :=
  ticks.foldl (fun s t => trackTick cfg s t.1 t.2) st

theorem runTicks_exited (cfg : TrackerConfig) (st : TrackerState)
    (ticks : List (GoStr × Bool)) (h : st.exited = true) :
    (runTicks cfg st ticks).exited = true := by
  induction ticks generalizing st with
  | nil => exact h
  | cons t ts ih =>
    exact ih (trackTick cfg st t.1 t.2) (by simp [trackTick, h])

/-- C5: within the startup quiet window a live tracker is initializing;
afterwards it is stable exactly when the most recent samples covering the
stability window are byte-equal and changing otherwise; and once the child
has exited the status is terminated and remains terminated under every
further sequence of ticks. -/
theorem c5_tracker_classification (cfg : TrackerConfig) (st : TrackerState) :
    (st.exited = false → st.elapsed < cfg.startupQuiet →
      classifyStatus cfg st = .initializing) ∧
    (st.exited = false → ¬ st.elapsed < cfg.startupQuiet →
      (classifyStatus cfg st = .stable ↔
        allEqual (st.samples.take cfg.window) = true) ∧
      (classifyStatus cfg st = .changing ↔
        allEqual (st.samples.take cfg.window) = false)) ∧
    (st.exited = true → ∀ ticks : List (GoStr × Bool),
      classifyStatus cfg (runTicks cfg st ticks) = .terminated) := by
  refine ⟨?_, ?_, ?_⟩
  · intro hex hlt
    simp [classifyStatus, hex, hlt]
  · intro hex hge
    cases ha : allEqual (st.samples.take cfg.window) with
    | false => simp [classifyStatus, hex, hge, ha]
    | true => simp [classifyStatus, hex, hge, ha]
  · intro hex ticks
    simp [classifyStatus, runTicks_exited cfg st ticks hex]

theorem c5_tracker_classification_witness :
    classifyStatus ⟨40, 10, 12⟩ ⟨5, [], false⟩ = AgentStatus.initializing ∧
    classifyStatus ⟨40, 10, 12⟩
      (runTicks ⟨40, 10, 12⟩ ⟨100, [], true⟩ [(gs "x", false)]) =
      AgentStatus.terminated ∧
    classifyStatus ⟨40, 10, 12⟩ ⟨100, [gs "a", gs "a"], false⟩ = AgentStatus.stable :=
  ⟨(c5_tracker_classification ⟨40, 10, 12⟩ ⟨5, [], false⟩).1 rfl (by decide),
   (c5_tracker_classification ⟨40, 10, 12⟩ ⟨100, [], true⟩).2.2 rfl [(gs "x", false)],
   ((c5_tracker_classification ⟨40, 10, 12⟩ ⟨100, [gs "a", gs "a"], false⟩).2.1 rfl
      (by decide)).1.mpr (by decide)⟩

/-- Role of a transcript message. -/
inductive MsgRole where
  | user
  | agent
deriving DecidableEq

/-- A transcript message: stable id, role, content. -/
structure Message where
  id : Nat
  role : MsgRole
  content : GoStr
deriving DecidableEq

/-- Modelled from the spec: the segmenter state of lib/httpapi (not under
src): the ordered list of sealed messages, the optional open agent tail
(its id and content; only agent replies are ever open), and the next fresh
id. -/
structure SegState where
  sealedMsgs : List Message
  openTail : Option (Nat × GoStr)
  nextId : Nat

/-- The initial segmenter state: empty transcript. -/
def initSeg : SegState := ⟨[], none, 0⟩

/-- The open tail rendered as a transcript entry (role agent). -/
def tailList : Option (Nat × GoStr) → List Message
  | none => []
  | some (i, t) => [⟨i, .agent, t⟩]

/-- The transcript: sealed messages followed by the open tail. -/
def transcript (s : SegState) : List Message :=
  s.sealedMsgs ++ tailList s.openTail

/-- The ids of the transcript, in order. -/
def transcriptIds (s : SegState) : List Nat :=
  (transcript s).map (fun m => m.id)

/-- Inputs the segmenter reacts to: a user submission, a stable snapshot
already run through the Agent Formatter, or raw input. -/
inductive SegOp where
  | submitUser (content : GoStr)
  | stableSnapshot (formatted : GoStr)
  | rawInput (content : GoStr)

/-- Modelled from the spec: one segmenter transition of lib/httpapi (not
under src). A user submission seals any open agent tail and immediately
appends a user message with the submitted content under a fresh id; a
stable snapshot replaces the open agent tail content (id unchanged) or
opens a new agent tail under a fresh id; raw input never touches the
transcript. -/
def segStep (s : SegState) : SegOp → SegState
  | .submitUser c =>
      { sealedMsgs := s.sealedMsgs ++ tailList s.openTail ++ [⟨s.nextId, .user, c⟩]
        openTail := none
        nextId := s.nextId + 1 }
  | .stableSnapshot t =>
      match s.openTail with
      | some (i, _) => { s with openTail := some (i, t) }
      | none => { s with openTail := some (s.nextId, t), nextId := s.nextId + 1 }
  | .rawInput _ => s

/-- Runs a sequence of segmenter inputs from the empty transcript. -/
def runSeg (ops : List SegOp) : SegState := ops.foldl segStep initSeg

/-- Selects the content of user-role messages. -/
def userSel (m : Message) : Option GoStr :=
  if m.role = .user then some m.content else none

/-- The user-role contents of the transcript, in order. -/
def userContents (s : SegState) : List GoStr :=
  (transcript s).filterMap userSel

/-- The contents of the user submissions among segmenter inputs, in order. -/
def submittedContents (ops : List SegOp) : List GoStr :=
  ops.filterMap fun op =>
    match op with
    | .submitUser c => some c
    | _ => none

theorem tailList_no_user (ot : Option (Nat × GoStr)) :
    (tailList ot).filterMap userSel = [] := by
  cases ot with
  | none => rfl
  | some p => simp [tailList, userSel]

theorem userContents_eq (s : SegState) :
    userContents s = s.sealedMsgs.filterMap userSel := by
  unfold userContents transcript
  rw [List.filterMap_append, tailList_no_user]
  simp

theorem userContents_fold (ops : List SegOp) (s : SegState) :
    userContents (ops.foldl segStep s) = userContents s ++ submittedContents ops := by
  induction ops generalizing s with
  | nil => simp [submittedContents]
  | cons op ops ih =>
    rw [List.foldl_cons, ih]
    cases op with
    | submitUser c =>
      rw [userContents_eq, userContents_eq]
      simp [segStep, submittedContents, List.filterMap_append, tailList_no_user, userSel]
    | stableSnapshot t =>
      rw [userContents_eq, userContents_eq]
      cases ho : s.openTail with
      | none => simp [segStep, ho, submittedContents]
      | some p => simp [segStep, ho, submittedContents]
    | rawInput c =>
      simp [segStep, submittedContents]

theorem idsBound_step (s : SegState) (op : SegOp)
    (h : ∀ m ∈ transcript s, m.id < s.nextId) :
    ∀ m ∈ transcript (segStep s op), m.id < (segStep s op).nextId := by
  cases op with
  | submitUser c =>
    intro m hm
    simp [segStep, transcript, tailList] at hm
    rcases hm with hm | hm | hm
    · exact Nat.lt_succ_of_lt (h m (by simp [transcript, hm]))
    · have : m ∈ tailList s.openTail := hm
      exact Nat.lt_succ_of_lt (h m (by simp [transcript]; right; exact this))
    · subst hm; exact Nat.lt_succ_self _
  | stableSnapshot t =>
    intro m hm
    cases ho : s.openTail with
    | none =>
      simp only [segStep, ho] at hm ⊢
      simp [transcript, tailList] at hm
      rcases hm with hm | hm
      · exact Nat.lt_succ_of_lt (h m (by simp [transcript, hm]))
      · subst hm; exact Nat.lt_succ_self _
    | some p =>
      obtain ⟨i, c0⟩ := p
      simp only [segStep, ho] at hm ⊢
      simp [transcript, tailList] at hm
      rcases hm with hm | hm
      · exact h m (by simp [transcript, hm])
      · subst hm
        have hmem : (⟨i, .agent, c0⟩ : Message) ∈ transcript s := by
          simp [transcript, ho, tailList]
        exact h ⟨i, .agent, c0⟩ hmem
  | rawInput c =>
    exact h

theorem idsBound_run (ops : List SegOp) :
    ∀ m ∈ transcript (runSeg ops), m.id < (runSeg ops).nextId := by
  have general : ∀ (ops : List SegOp) (s : SegState),
      (∀ m ∈ transcript s, m.id < s.nextId) →
      ∀ m ∈ transcript (ops.foldl segStep s), m.id < (ops.foldl segStep s).nextId := by
    intro ops
    induction ops with
    | nil => intro s h; exact h
    | cons op ops ih =>
      intro s h
      exact ih (segStep s op) (idsBound_step s op h)
  exact general ops initSeg (by simp [transcript, initSeg, tailList])

/-- C6: running any sequence of segmenter inputs yields user-role messages
exactly matching the submitted contents in submission order, every user
submission immediately appends its user message with the submitted content
under the current fresh id, and that id differs from the id of every
message already in the transcript. -/
theorem c6_user_messages (ops : List SegOp) (c : GoStr) :
    userContents (runSeg ops) = submittedContents ops ∧
    transcript (segStep (runSeg ops) (.submitUser c)) =
      transcript (runSeg ops) ++ [⟨(runSeg ops).nextId, .user, c⟩] ∧
    (∀ m ∈ transcript (runSeg ops), m.id ≠ (runSeg ops).nextId) := by
  refine ⟨?_, ?_, ?_⟩
  · rw [runSeg, userContents_fold]
    simp [userContents, transcript, initSeg, tailList]
  · simp [segStep, transcript, tailList]
  · intro m hm
    exact Nat.ne_of_lt (idsBound_run ops m hm)

theorem c6_user_messages_witness :
    userContents (runSeg [SegOp.submitUser (gs "hello"), SegOp.stableSnapshot (gs "hi")]) =
      [gs "hello"] :=
  (c6_user_messages [SegOp.submitUser (gs "hello"), SegOp.stableSnapshot (gs "hi")]
    (gs "x")).1.trans (by rfl)

/-- C7: a stable snapshot arriving while an agent tail is open replaces
only the content of that tail, keeping its id and the whole id sequence of
the transcript unchanged; and any single segmenter transition, from any
state, either preserves the id sequence or extends it with exactly one
fresh id, so a new id appears only when a new turn begins. -/
theorem c7_id_stability (s : SegState) (i : Nat) (c t : GoStr) (op : SegOp) :
    (s.openTail = some (i, c) →
      transcript (segStep s (.stableSnapshot t)) = s.sealedMsgs ++ [⟨i, .agent, t⟩] ∧
      transcriptIds (segStep s (.stableSnapshot t)) = transcriptIds s) ∧
    (transcriptIds (segStep s op) = transcriptIds s ∨
     transcriptIds (segStep s op) = transcriptIds s ++ [s.nextId]) := by
  constructor
  · intro h
    constructor
    · simp [segStep, h, transcript, tailList]
    · simp [transcriptIds, segStep, h, transcript, tailList]
  · cases op with
    | submitUser c' =>
      right
      simp [transcriptIds, segStep, transcript, tailList]
    | stableSnapshot t' =>
      cases ho : s.openTail with
      | none =>
        right
        simp [transcriptIds, segStep, ho, transcript, tailList]
      | some p =>
        obtain ⟨i', c0⟩ := p
        left
        simp [transcriptIds, segStep, ho, transcript, tailList]
    | rawInput c' =>
      left
      rfl

theorem c7_id_stability_witness :
    transcriptIds (segStep ⟨[⟨0, .user, gs "hi"⟩], some (1, gs "a"), 2⟩
      (SegOp.stableSnapshot (gs "ab"))) =
      transcriptIds ⟨[⟨0, .user, gs "hi"⟩], some (1, gs "a"), 2⟩ ∧
    (transcriptIds (segStep initSeg (SegOp.stableSnapshot (gs "x"))) =
      transcriptIds initSeg ∨
     transcriptIds (segStep initSeg (SegOp.stableSnapshot (gs "x"))) =
      transcriptIds initSeg ++ [initSeg.nextId]) :=
  ⟨((c7_id_stability ⟨[⟨0, .user, gs "hi"⟩], some (1, gs "a"), 2⟩ 1 (gs "a") (gs "ab")
      (SegOp.rawInput (gs ""))).1 rfl).2,
   (c7_id_stability initSeg 0 (gs "") (gs "x") (SegOp.stableSnapshot (gs "x"))).2⟩

/-- Embeds DefaultCoordinatorURL (lib/coordinator/client.go). -/
def DefaultCoordinatorURL : GoStr := gs "https://coordinator.claudecode.app"

/-- Embeds getCoordinatorURL (lib/coordinator/client.go). The environment
is modelled as a function from variable names to values; os.Getenv yields
the empty string for an unset variable. A non-empty COORDINATOR_URL wins,
otherwise the default URL is used. -/
def getCoordinatorURL (env : GoStr → GoStr) : GoStr :=
  if env (gs "COORDINATOR_URL") ≠ gs "" then env (gs "COORDINATOR_URL")
  else DefaultCoordinatorURL

/-- Embeds the URL Register posts to (fmt.Sprintf of the coordinator URL
and /register in lib/coordinator/client.go). -/
def registerURL (env : GoStr → GoStr) : GoStr :=
  getCoordinatorURL env ++ gs "/register"

/-- Embeds the URL Lookup fetches (fmt.Sprintf of the coordinator URL,
/lookup/ and the passcode in lib/coordinator/client.go). -/
def lookupURL (env : GoStr → GoStr) (passcode : GoStr) : GoStr :=
  getCoordinatorURL env ++ gs "/lookup/" ++ passcode

/-- C9: the coordinator URL used by Register and Lookup is the value of
COORDINATOR_URL when set non-empty and the default URL otherwise, and two
environments agreeing on COORDINATOR_URL give identical coordinator client
behaviour, so no other environment variable affects it. -/
theorem c9_coordinator_url (env env2 : GoStr → GoStr) (pc : GoStr) :
    (env (gs "COORDINATOR_URL") ≠ gs "" →
      getCoordinatorURL env = env (gs "COORDINATOR_URL")) ∧
    (env (gs "COORDINATOR_URL") = gs "" →
      getCoordinatorURL env = gs "https://coordinator.claudecode.app") ∧
    registerURL env = getCoordinatorURL env ++ gs "/register" ∧
    lookupURL env pc = getCoordinatorURL env ++ gs "/lookup/" ++ pc ∧
    (env (gs "COORDINATOR_URL") = env2 (gs "COORDINATOR_URL") →
      getCoordinatorURL env = getCoordinatorURL env2 ∧
      registerURL env = registerURL env2 ∧
      lookupURL env pc = lookupURL env2 pc) := by
  refine ⟨?_, ?_, rfl, rfl, ?_⟩
  · intro h
    simp [getCoordinatorURL, h]
  · intro h
    simp [getCoordinatorURL, h, DefaultCoordinatorURL]
  · intro h
    have hg : getCoordinatorURL env = getCoordinatorURL env2 := by
      unfold getCoordinatorURL
      rw [h]
    refine ⟨hg, ?_, ?_⟩
    · unfold registerURL; rw [hg]
    · unfold lookupURL; rw [hg]

theorem c9_coordinator_url_witness :
    getCoordinatorURL (fun _ => gs "") = gs "https://coordinator.claudecode.app" ∧
    getCoordinatorURL (fun v => if v = gs "COORDINATOR_URL" then gs "http://cust" else gs "") =
      gs "http://cust" :=
  ⟨(c9_coordinator_url (fun _ => gs "") (fun _ => gs "") (gs "p")).2.1 rfl,
   ((c9_coordinator_url (fun v => if v = gs "COORDINATOR_URL" then gs "http://cust" else gs "")
      (fun _ => gs "") (gs "p")).1 (by decide)).trans (by decide)⟩

/-- Embeds passcodeChars (cmd/quickstart/session.go): uppercase letters
and digits excluding ambiguous characters. -/
def passcodeChars : GoStr := gs "ABCDEFGHJKLMNPQRSTUVWXYZ23456789"

/-- Embeds generatePasscode (cmd/quickstart/session.go): six characters,
each chosen from passcodeChars at an index produced by randInt on the
alphabet length; crypto/rand guarantees the index is below the bound,
modelled by the Fin-valued argument. -/
def generatePasscode (rand : Fin 6 → Fin passcodeChars.length) : GoStr :=
  List.ofFn fun i => passcodeChars.get (rand i)

/-- Embeds the passcode format test of the coordinator worker: the regex
anchored to exactly six characters drawn from the same alphabet
(coordinator/README.md). -/
def passcodeFormatOk (p : GoStr) : Bool :=
  p.length == 6 && p.all (fun c => passcodeChars.contains c)

/-- Outcome of the POST /register validation in the worker. -/
inductive RegisterOutcome where
  | missingFields
  | invalidFormat
  | accepted
deriving DecidableEq

/-- Embeds the validation sequence of the POST /register handler of the worker
(coordinator/README.md): falsy (empty) fields are rejected first, then a
passcode failing the format regex; otherwise registration proceeds. -/
def registerValidate (passcode tunnelURL token : GoStr) : RegisterOutcome :=
  if passcode = gs "" ∨ tunnelURL = gs "" ∨ token = gs "" then .missingFields
  else if passcodeFormatOk passcode = false then .invalidFormat
  else .accepted

/-- C10: every generated passcode has exactly six characters, all drawn
from the passcode alphabet, passes the format regex of the worker, and is never
rejected by POST /register for invalid format (given non-empty tunnel URL
and token). -/
theorem c10_generate_passcode (rand : Fin 6 → Fin passcodeChars.length)
    (tunnelURL token : GoStr) (h1 : tunnelURL ≠ gs "") (h2 : token ≠ gs "") :
    (generatePasscode rand).length = 6 ∧
    (∀ c ∈ generatePasscode rand, c ∈ passcodeChars) ∧
    passcodeFormatOk (generatePasscode rand) = true ∧
    registerValidate (generatePasscode rand) tunnelURL token = .accepted := by
  have hlen : (generatePasscode rand).length = 6 := by
    unfold generatePasscode
    exact List.length_ofFn _
  have hmem : ∀ c ∈ generatePasscode rand, c ∈ passcodeChars := by
    intro c hc
    unfold generatePasscode at hc
    rw [List.mem_ofFn] at hc
    obtain ⟨i, rfl⟩ := hc
    exact List.get_mem _ _ _
  have hfmt : passcodeFormatOk (generatePasscode rand) = true := by
    unfold passcodeFormatOk
    rw [hlen]
    simp only [beq_self_eq_true, Bool.true_and, List.all_eq_true]
    intro c hc
    have := hmem c hc
    simp [List.contains, List.elem_iff, this]
  refine ⟨hlen, hmem, hfmt, ?_⟩
  have hne : generatePasscode rand ≠ gs "" := by
    intro h
    rw [h] at hlen
    exact absurd hlen (by decide)
  unfold registerValidate
  rw [if_neg ?_, if_neg ?_]
  · rw [hfmt]
    decide
  · rintro (hx | hx | hx)
    · exact hne hx
    · exact h1 hx
    · exact h2 hx

theorem c10_generate_passcode_witness :
    registerValidate (generatePasscode (fun _ => ⟨0, by decide⟩))
      (gs "https://t.lhr.life") (gs "k") = RegisterOutcome.accepted ∧
    passcodeFormatOk (generatePasscode (fun _ => ⟨0, by decide⟩)) = true :=
  ⟨(c10_generate_passcode (fun _ => ⟨0, by decide⟩) (gs "https://t.lhr.life") (gs "k")
      (by decide) (by decide)).2.2.2,
   (c10_generate_passcode (fun _ => ⟨0, by decide⟩) (gs "https://t.lhr.life") (gs "k")
      (by decide) (by decide)).2.2.1⟩
